import Mathlib

/-!
Shallow embedding of the NJIT Auto Schedule Builder engine (`app.py`).

Strings that the Python code manipulates character-by-character (time strings
such as `"10:00"`, day-token strings such as `"MTWRF"`) are embedded as
`List Char`; course codes, which the code only compares for equality, stay
`String`.  Python `set`s of day characters are embedded as duplicate-free
`List Char` values with membership-based operations, which is all the code
uses of them.  `_mins` raising `ValueError` on malformed time strings is
embedded as an `Option` result; the time strings the claims concern are
canonical digit strings, so the digit-only parse below covers them
(Python's `int` also accepts signs and underscores, which never arise here).
-/

namespace NJIT

set_option autoImplicit false

/-- Parse a nonempty all-digit character sequence as a natural number,
as Python `int` does on canonical digit strings; `none` otherwise
(Python raises `ValueError`). -/
def parseDigits (cs : List Char) : Option Nat :=
  if cs.isEmpty || !cs.all Char.isDigit then none
  else some (cs.foldl (fun a c => 10 * a + (c.toNat - 48)) 0)

/-- Python `t.split(":")`: split a character list on the colon character. -/
def splitColon (cs : List Char) : List (List Char) :=
  cs.foldr
    (fun c r =>
      if c = ':' then [] :: r
      else
        match r with
        | h :: t => (c :: h) :: t
        | [] => [[c]])
    [[]]

/-- `_mins(t)`: `h, m = map(int, t.split(":")); return 60 * h + m`.
The destructuring assignment fails unless the split yields exactly two
parts; any parse failure is a `ValueError`, i.e. `none` here. -/
def mins (t : List Char) : Option Nat :=
  match splitColon t with
  | [h, m] =>
    match parseDigits h, parseDigits m with
    | some hv, some mv => some (60 * hv + mv)
    | _, _ => none
  | _ => none

/-- One course section: `Section.__init__` stores the course code, the CRN,
the day-token set `set(days)` and the parsed start/end minutes. -/
structure Section where
  course : String
  crn : Nat
  days : List Char
  start : Nat
  stop : Nat
deriving DecidableEq, Repr

/-- `Section(course, crn, days, start, end)`: the constructor parses the two
time strings with `_mins` (the only operation in `__init__` that can raise)
and performs no other validation. -/
def mkSection (course : String) (crn : Nat) (days : List Char)
    (startStr stopStr : List Char) : Option Section :=
  match mins startStr, mins stopStr with
  | some s, some e => some ⟨course, crn, days.eraseDups, s, e⟩
  | _, _ => none

/-- `Section.clashes`: day sets intersect and half-open time intervals
overlap. -/
def Section.clashes (a b : Section) : Bool :=
  a.days.any (fun d => b.days.contains d)
    && (decide (a.start < b.stop) && decide (b.start < a.stop))

/-- Insert a character into an already-sorted (by code point) list. -/
def insertChar (c : Char) : List Char → List Char
  | [] => [c]
  | d :: ds => if c.val ≤ d.val then c :: d :: ds else d :: insertChar c ds

/-- Python `sorted` on a set of characters: sort by code point. -/
def sortChars : List Char → List Char
  | [] => []
  | c :: cs => insertChar c (sortChars cs)

/-- Python `f"{n:02d}"`: decimal digits, left-padded with zeros to width 2. -/
def pad2 (n : Nat) : List Char :=
  let ds := Nat.toDigits 10 n
  if ds.length < 2 then '0' :: ds else ds

/-- The `"HH:MM"` rendering used by `Section.to_dict` (and the HTML route):
`f"{m // 60:02d}:{m % 60:02d}"`. -/
def fmtClock (m : Nat) : List Char :=
  pad2 (m / 60) ++ ':' :: pad2 (m % 60)

/-- The record `Section.to_dict` returns. -/
structure SectionDict where
  course : String
  crn : Nat
  days : List Char
  start : List Char
  stop : List Char
deriving DecidableEq, Repr

/-- `Section.to_dict`: days sorted and concatenated, times rendered as
`"HH:MM"`. -/
def Section.to_dict (s : Section) : SectionDict :=
  ⟨s.course, s.crn, sortChars s.days, fmtClock s.start, fmtClock s.stop⟩

/-- The in-memory catalogue `SECTIONS`: course code to ordered section pool. -/
def Catalogue : Type := List (String × List Section)

/-- Dictionary lookup `SECTIONS[c]` guarded by `c not in SECTIONS`. -/
def lookupCourse (cat : Catalogue) (c : String) : Option (List Section) :=
  match cat with
  | [] => none
  | (k, v) :: rest => if k = c then some v else lookupCourse rest c

/-- `MAX_SOLNS = 50`. -/
def MAX_SOLNS : Nat := 50

/-- The pool-building loop of `find_schedules`: resolve each requested code
in input order, raising `ValueError(f"Unknown course: {c}")` at the first
code absent from the catalogue. -/
def resolvePools (cat : Catalogue) : List String → Except String (List (List Section))
  | [] => .ok []
  | c :: rest =>
    match lookupCourse cat c with
    | none => .error ("Unknown course: " ++ c)
    | some pool =>
      match resolvePools cat rest with
      | .error e => .error e
      | .ok ps => .ok (pool :: ps)

/-- Day filter: `any(sec.days - days_ok for sec in combo)` rejects the combo
when some section has a day outside `days_ok`. -/
def rejectDays (combo : List Section) (daysOk : List Char) : Bool :=
  combo.any (fun sec => sec.days.any (fun d => !(daysOk.contains d)))

/-- Time filter: `any(sec.start < start_ok or sec.end > end_ok ...)`. -/
def rejectTime (combo : List Section) (startOk endOk : Nat) : Bool :=
  combo.any (fun sec => decide (sec.start < startOk) || decide (sec.stop > endOk))

/-- Clash filter: `any(a.clashes(b) for a, b in itertools.combinations(combo, 2))`. -/
def pairsClash : List Section → Bool
  | [] => false
  | a :: rest => rest.any (fun b => a.clashes b) || pairsClash rest

/-- A combination survives all three filters of `find_schedules`. -/
def validCombo (combo : List Section) (startOk endOk : Nat) (daysOk : List Char) : Bool :=
  !rejectDays combo daysOk && !rejectTime combo startOk endOk && !pairsClash combo

/-- `itertools.product(*pools)` in its order: the first pool varies slowest,
the last pool fastest. -/
def cartesianProduct : List (List Section) → List (List Section)
  | [] => [[]]
  | p :: ps => p.flatMap (fun s => (cartesianProduct ps).map (s :: ·))

/-- The enumeration loop of `find_schedules` over the product stream:
`count` is the number of schedules already yielded; after each yield the
loop breaks once `count >= MAX_SOLNS`. -/
def enumLoop (startOk endOk : Nat) (daysOk : List Char) :
    List (List Section) → Nat → List (List Section)
  | [], _ => []
  | combo :: rest, count =>
    if rejectDays combo daysOk then enumLoop startOk endOk daysOk rest count
    else if rejectTime combo startOk endOk then enumLoop startOk endOk daysOk rest count
    else if pairsClash combo then enumLoop startOk endOk daysOk rest count
    else if MAX_SOLNS ≤ count + 1 then [combo]
    else combo :: enumLoop startOk endOk daysOk rest (count + 1)

/-- `find_schedules(courses, start_ok, end_ok, days_ok)`: resolve the pools
(raising on an unknown course before any enumeration), then filter the
Cartesian product, yielding at most `MAX_SOLNS` schedules. -/
def find_schedules (cat : Catalogue) (courses : List String)
    (startOk endOk : Nat) (daysOk : List Char) : Except String (List (List Section)) :=
  match resolvePools cat courses with
  | .error e => .error e
  | .ok pools => .ok (enumLoop startOk endOk daysOk (cartesianProduct pools) 0)

/-- The truncation indicator of the HTML template:
`schedules|length == max_solns`. -/
def truncatedFlag (result : List (List Section)) : Bool :=
  result.length == MAX_SOLNS

/-- The three response shapes of the `/api/solve` route: a JSON array of
schedules, a `jsonify({"error": msg}), status` pair, or an exception that
escapes the handler (Flask turns it into a 500). -/
inductive ApiResponse where
  | solutions (body : List (List SectionDict))
  | errorResponse (msg : String) (status : Nat)
  | unhandled (msg : String)
deriving DecidableEq, Repr

/-- Python `str.upper()` on a course code: uppercase each character. -/
def upperStr (s : String) : String :=
  ⟨s.data.map Char.toUpper⟩

/-- `api_solve` after JSON extraction: uppercase the course codes, parse the
time strings (any `ValueError` gives the 400 `malformed-request` response),
uppercase the day string, run `find_schedules` (whose `ValueError` is not
caught here) and answer `404 no-schedule` when the solution list is empty. -/
def api_solve (cat : Catalogue) (courses : List String)
    (startStr endStr : List Char) (daysStr : List Char) : ApiResponse :=
  match mins startStr, mins endStr with
  | some s, some e =>
    match find_schedules cat (courses.map upperStr) s e (daysStr.map Char.toUpper) with
    | .error msg => .unhandled msg
    | .ok scheds =>
      let solutions := scheds.map (fun sched => sched.map Section.to_dict)
      if solutions.isEmpty then .errorResponse "no-schedule" 404
      else .solutions solutions
  | _, _ => .errorResponse "malformed-request" 400

/-! ### Concrete fixtures for witnesses and counterexamples -/

/-- A family of sections of course `"A"`, Mondays 09:00–10:00. -/
def secA (i : Nat) : Section := ⟨"A", i, ['M'], 540, 600⟩

/-- Catalogue with a single one-section pool. -/
def cat1 : Catalogue := [("A", [secA 0])]

/-- A pool of 50 valid sections — exactly `MAX_SOLNS` combinations. -/
def pool50 : List Section := (List.range 50).map secA

def cat50 : Catalogue := [("A", pool50)]

/-- A pool of 51 valid sections — more combinations than the cap. -/
def pool51 : List Section := (List.range 51).map secA

def cat51 : Catalogue := [("A", pool51)]

/-- A section with an empty day set: it clashes with nothing, itself
included. -/
def secEmptyDays : Section := ⟨"A", 1, [], 540, 600⟩

def catE : Catalogue := [("A", [secEmptyDays])]

/-- Two sections of course `"B"` at the same hour on different days; each
clashes with itself but not with the other. -/
def secMon : Section := ⟨"B", 1, ['M'], 540, 600⟩

def secTue : Section := ⟨"B", 2, ['T'], 540, 600⟩

def catB : Catalogue := [("B", [secMon, secTue])]

/-- A section starting exactly when `secA` ends, on the same day. -/
def secAdj : Section := ⟨"C", 3, ['M'], 600, 660⟩

/-! ### Helper lemmas -/

theorem enumLoop_eq_take (startOk endOk : Nat) (daysOk : List Char)
    (combos : List (List Section)) :
    ∀ count : Nat, count < MAX_SOLNS →
      enumLoop startOk endOk daysOk combos count =
        (combos.filter (fun c => validCombo c startOk endOk daysOk)).take (MAX_SOLNS - count) := by
  induction combos with
  | nil => intro count _; simp [enumLoop]
  | cons combo rest ih =>
    intro count hcount
    by_cases h1 : rejectDays combo daysOk = true
    · have hv : validCombo combo startOk endOk daysOk = false := by
        simp [validCombo, h1]
      simp [enumLoop, h1, hv, ih count hcount]
    · by_cases h2 : rejectTime combo startOk endOk = true
      · have hv : validCombo combo startOk endOk daysOk = false := by
          simp [validCombo, h2]
        simp [enumLoop, h1, h2, hv, ih count hcount]
      · by_cases h3 : pairsClash combo = true
        · have hv : validCombo combo startOk endOk daysOk = false := by
            simp [validCombo, h3]
          simp [enumLoop, h1, h2, h3, hv, ih count hcount]
        · have hv : validCombo combo startOk endOk daysOk = true := by
            simp [validCombo, h1, h2, h3]
          by_cases h4 : MAX_SOLNS ≤ count + 1
          · have hc : MAX_SOLNS - count = 1 := by omega
            simp [enumLoop, h1, h2, h3, h4, hv, hc]
          · have hc : MAX_SOLNS - count = (MAX_SOLNS - (count + 1)) + 1 := by omega
            simp [enumLoop, h1, h2, h3, h4, hv, hc, ih (count + 1) (by omega)]

theorem find_schedules_eq (cat : Catalogue) (courses : List String)
    (startOk endOk : Nat) (daysOk : List Char) :
    find_schedules cat courses startOk endOk daysOk =
      (resolvePools cat courses).map (fun pools =>
        ((cartesianProduct pools).filter
          (fun c => validCombo c startOk endOk daysOk)).take MAX_SOLNS) := by
  unfold find_schedules
  cases hres : resolvePools cat courses with
  | error e => rfl
  | ok pools =>
    simp [Except.map, enumLoop_eq_take startOk endOk daysOk (cartesianProduct pools) 0
      (by simp [MAX_SOLNS])]

theorem mem_cartesianProduct_cons {p : List Section} {ps : List (List Section)}
    {combo : List Section} :
    combo ∈ cartesianProduct (p :: ps) ↔
      ∃ x xs, x ∈ p ∧ xs ∈ cartesianProduct ps ∧ combo = x :: xs := by
  simp only [cartesianProduct, List.mem_flatMap, List.mem_map]
  constructor
  · rintro ⟨x, hx, xs, hxs, rfl⟩
    exact ⟨x, xs, hx, hxs, rfl⟩
  · rintro ⟨x, xs, hx, hxs, rfl⟩
    exact ⟨x, hx, xs, hxs, rfl⟩

theorem rejectDays_eq_false_iff (combo : List Section) (daysOk : List Char) :
    rejectDays combo daysOk = false ↔
      ∀ sec ∈ combo, ∀ c ∈ sec.days, c ∈ daysOk := by
  simp [rejectDays, List.elem_iff]

theorem rejectTime_eq_false_iff (combo : List Section) (startOk endOk : Nat) :
    rejectTime combo startOk endOk = false ↔
      ∀ sec ∈ combo, startOk ≤ sec.start ∧ sec.stop ≤ endOk := by
  simp [rejectTime, List.any_eq_false, Nat.not_lt]

theorem pairsClash_eq_false_iff (combo : List Section) :
    pairsClash combo = false ↔ combo.Pairwise (fun a b => a.clashes b = false) := by
  induction combo with
  | nil => simp [pairsClash]
  | cons a rest ih =>
    simp [pairsClash, List.pairwise_cons, ih, List.any_eq_false]

theorem validCombo_eq_true_iff (combo : List Section) (startOk endOk : Nat)
    (daysOk : List Char) :
    validCombo combo startOk endOk daysOk = true ↔
      (∀ sec ∈ combo, ∀ c ∈ sec.days, c ∈ daysOk)
      ∧ (∀ sec ∈ combo, startOk ≤ sec.start ∧ sec.stop ≤ endOk)
      ∧ combo.Pairwise (fun a b => a.clashes b = false) := by
  simp only [validCombo, Bool.and_eq_true, Bool.not_eq_true']
  rw [rejectDays_eq_false_iff, rejectTime_eq_false_iff, pairsClash_eq_false_iff]
  tauto

theorem resolvePools_first_unknown (cat : Catalogue) (c : String)
    (habsent : lookupCourse cat c = none) :
    ∀ (pre post : List String), (∀ c' ∈ pre, (lookupCourse cat c').isSome) →
      resolvePools cat (pre ++ c :: post) = .error ("Unknown course: " ++ c) := by
  intro pre
  induction pre with
  | nil => intro post _; simp [resolvePools, habsent]
  | cons p ps ih =>
    intro post hpre
    have hp : (lookupCourse cat p).isSome := hpre p (List.mem_cons_self p ps)
    obtain ⟨pool, hpool⟩ := Option.isSome_iff_exists.mp hp
    have hrec := ih post (fun c' hc' => hpre c' (List.mem_cons_of_mem p hc'))
    simp [resolvePools, hpool, hrec]

/-! ### Claim theorems -/

/-- Claim C3: `clashes(a, b)` is true iff the two day sets intersect and
`a.start < b.end` and `b.start < a.end`; in particular two sections sharing
a day with `a.end == b.start` do not clash, and a section with an empty day
set clashes with nothing. -/
theorem clashes_characterization (a b : Section) :
    (a.clashes b = true ↔
      ((∃ d, d ∈ a.days ∧ d ∈ b.days) ∧ a.start < b.stop ∧ b.start < a.stop))
    ∧ (a.stop = b.start → a.clashes b = false)
    ∧ (a.days = [] → a.clashes b = false ∧ b.clashes a = false) := by
  refine ⟨?_, ?_, ?_⟩
  · simp [Section.clashes, List.any_eq_true, List.elem_iff]
  · intro h
    simp [Section.clashes, h, Nat.lt_irrefl]
  · intro h
    constructor <;> simp [Section.clashes, h]

/-- Witness for C3 at concrete sections: back-to-back sections on a shared
day do not clash, and an empty-day-set section does not clash with an
overlapping one. -/
theorem clashes_characterization_witness :
    (secA 0).clashes secAdj = false ∧ secEmptyDays.clashes (secA 0) = false :=
  ⟨(clashes_characterization (secA 0) secAdj).2.1 rfl,
   ((clashes_characterization secEmptyDays (secA 0)).2.2 rfl).1⟩

/-- Claim C5: the output of `find_schedules` is exactly the Cartesian
product of the pools — pools in input course order, sections in catalogue
order, first pool varying slowest — filtered by the three validity filters
and truncated at the cap, in product order. -/
theorem enumeration_order (cat : Catalogue) (courses : List String)
    (startOk endOk : Nat) (daysOk : List Char) :
    find_schedules cat courses startOk endOk daysOk =
      (resolvePools cat courses).map (fun pools =>
        ((cartesianProduct pools).filter
          (fun c => validCombo c startOk endOk daysOk)).take MAX_SOLNS) :=
  find_schedules_eq cat courses startOk endOk daysOk

/-- Claim C2: when the requested course list contains a code absent from
the catalogue, `find_schedules` fails with a `ValueError` naming the first
unresolved code, before any enumeration work: the result is the error, with
no schedules (not even a prefix) produced. -/
theorem unknown_course_rejection (cat : Catalogue)
    (startOk endOk : Nat) (daysOk : List Char) (c : String)
    (pre post : List String)
    (habsent : lookupCourse cat c = none)
    (hpre : ∀ c' ∈ pre, (lookupCourse cat c').isSome) :
    find_schedules cat (pre ++ c :: post) startOk endOk daysOk =
      .error ("Unknown course: " ++ c) := by
  unfold find_schedules
  rw [resolvePools_first_unknown cat c habsent pre post hpre]

/-- Witness for C2: requesting the unknown code `"ZZ"` fails with the
error naming it. -/
theorem unknown_course_rejection_witness :
    find_schedules cat1 ["ZZ"] 0 1440 ['M'] = .error "Unknown course: ZZ" :=
  unknown_course_rejection cat1 0 1440 ['M'] "ZZ" [] [] rfl (by simp)

/-- Claim C4: every yielded schedule is valid — each section's day set is
contained in the allowed days, its interval lies within the requested
window, and no two sections of the schedule clash. -/
theorem yielded_schedules_valid (cat : Catalogue) (courses : List String)
    (startOk endOk : Nat) (daysOk : List Char) (scheds : List (List Section))
    (h : find_schedules cat courses startOk endOk daysOk = .ok scheds) :
    ∀ sched ∈ scheds,
      (∀ sec ∈ sched,
        (∀ d ∈ sec.days, d ∈ daysOk) ∧ startOk ≤ sec.start ∧ sec.stop ≤ endOk)
      ∧ sched.Pairwise (fun a b => a.clashes b = false) := by
  intro sched hmem
  rw [find_schedules_eq] at h
  cases hres : resolvePools cat courses with
  | error e => rw [hres] at h; cases h
  | ok pools =>
    rw [hres] at h
    simp only [Except.map, Except.ok.injEq] at h
    subst h
    have hmem' : sched ∈ (cartesianProduct pools).filter
        (fun cmb => validCombo cmb startOk endOk daysOk) :=
      List.take_subset _ _ hmem
    have hvalid := (List.mem_filter.mp hmem').2
    rw [validCombo_eq_true_iff] at hvalid
    obtain ⟨hd, ht, hp⟩ := hvalid
    exact ⟨fun sec hs => ⟨hd sec hs, (ht sec hs).1, (ht sec hs).2⟩, hp⟩

/-- Witness for C4 at a concrete solved request: the section of the unique
yielded schedule lies within the requested window. -/
theorem yielded_schedules_valid_witness :
    0 ≤ (secA 0).start ∧ (secA 0).stop ≤ 1440 :=
  have h := yielded_schedules_valid cat1 ["A"] 0 1440 ['M'] [[secA 0]] rfl
    [secA 0] (by simp)
  ⟨(h.1 (secA 0) (by simp)).2.1, (h.1 (secA 0) (by simp)).2.2⟩

set_option maxRecDepth 4000 in
/-- Counterexample to C1 as stated: with exactly `MAX_SOLNS` valid
combinations (`M = 50 <= maxSolutions`), all of them are yielded but the
template's truncation indicator `schedules|length == max_solns` is `true`,
not `false`. -/
theorem cap_flag_boundary_cex :
    ((cartesianProduct [pool50]).filter (fun c => validCombo c 0 1440 ['M'])).length =
      MAX_SOLNS
    ∧ find_schedules cat50 ["A"] 0 1440 ['M'] =
        .ok ((cartesianProduct [pool50]).filter (fun c => validCombo c 0 1440 ['M']))
    ∧ truncatedFlag
        ((cartesianProduct [pool50]).filter (fun c => validCombo c 0 1440 ['M'])) = true :=
  ⟨rfl, rfl, rfl⟩

/-- Claim C1 (amended): with `M` valid combinations, if `M >= maxSolutions`
then exactly `maxSolutions` schedules are yielded and the truncation flag is
true; if `M < maxSolutions` then all `M` are yielded and the flag is false
(the flag is true exactly when the yielded count equals the cap, so it is
also true in the boundary case `M = maxSolutions`). -/
theorem cap_correctness (cat : Catalogue) (courses : List String)
    (startOk endOk : Nat) (daysOk : List Char) (pools : List (List Section))
    (hres : resolvePools cat courses = .ok pools) :
    (MAX_SOLNS ≤ ((cartesianProduct pools).filter
        (fun c => validCombo c startOk endOk daysOk)).length →
      find_schedules cat courses startOk endOk daysOk =
        .ok (((cartesianProduct pools).filter
          (fun c => validCombo c startOk endOk daysOk)).take MAX_SOLNS)
      ∧ (((cartesianProduct pools).filter
          (fun c => validCombo c startOk endOk daysOk)).take MAX_SOLNS).length = MAX_SOLNS
      ∧ truncatedFlag (((cartesianProduct pools).filter
          (fun c => validCombo c startOk endOk daysOk)).take MAX_SOLNS) = true)
    ∧ (((cartesianProduct pools).filter
        (fun c => validCombo c startOk endOk daysOk)).length < MAX_SOLNS →
      find_schedules cat courses startOk endOk daysOk =
        .ok ((cartesianProduct pools).filter
          (fun c => validCombo c startOk endOk daysOk))
      ∧ truncatedFlag ((cartesianProduct pools).filter
          (fun c => validCombo c startOk endOk daysOk)) = false) := by
  have hfs : find_schedules cat courses startOk endOk daysOk =
      .ok (((cartesianProduct pools).filter
        (fun c => validCombo c startOk endOk daysOk)).take MAX_SOLNS) := by
    rw [find_schedules_eq, hres]; rfl
  constructor
  · intro hM
    have hlen : (((cartesianProduct pools).filter
        (fun c => validCombo c startOk endOk daysOk)).take MAX_SOLNS).length = MAX_SOLNS := by
      rw [List.length_take]; omega
    exact ⟨hfs, hlen, by simp [truncatedFlag, hlen]⟩
  · intro hM
    have htake : ((cartesianProduct pools).filter
        (fun c => validCombo c startOk endOk daysOk)).take MAX_SOLNS =
        (cartesianProduct pools).filter (fun c => validCombo c startOk endOk daysOk) :=
      List.take_of_length_le (Nat.le_of_lt hM)
    refine ⟨htake ▸ hfs, ?_⟩
    simp only [truncatedFlag]
    exact beq_eq_false_iff_ne.mpr (Nat.ne_of_lt hM)

/-- Witness for C1 (amended), low branch: one valid combination, all of it
yielded, flag false. -/
theorem cap_correctness_witness :
    find_schedules cat1 ["A"] 0 1440 ['M'] =
      .ok ((cartesianProduct [[secA 0]]).filter (fun c => validCombo c 0 1440 ['M']))
    ∧ truncatedFlag
        ((cartesianProduct [[secA 0]]).filter (fun c => validCombo c 0 1440 ['M'])) = false :=
  (cap_correctness cat1 ["A"] 0 1440 ['M'] [[secA 0]] rfl).2 (by decide)

/-- Counterexample to C6 as stated: with a duplicated course code whose
pool holds a single empty-day-set section, the yielded schedule pairs that
candidate section with itself — the two slots do not hold two different
sections. -/
theorem duplicate_self_pair_cex :
    find_schedules catE ["A", "A"] 0 1440 ['M'] =
      .ok [[secEmptyDays, secEmptyDays]] := rfl

/-- Claim C6 (amended): duplicate course codes are independent Cartesian
slots, and every yielded schedule assigns to the two slots two mutually
non-clashing sections of that course's pool; the two sections are different
whenever every section of the pool clashes with itself (as any section with
a nonempty day set and positive duration does), but a section that does not
clash with itself — e.g. one with an empty day set — may fill both slots. -/
theorem duplicate_slots_independent (cat : Catalogue) (c : String)
    (pool : List Section) (startOk endOk : Nat) (daysOk : List Char)
    (scheds : List (List Section))
    (hpool : lookupCourse cat c = some pool)
    (h : find_schedules cat [c, c] startOk endOk daysOk = .ok scheds) :
    ∀ sched ∈ scheds, sched.length = 2 ∧
      ∀ a b, sched = [a, b] →
        a ∈ pool ∧ b ∈ pool ∧ a.clashes b = false ∧
        ((∀ x ∈ pool, x.clashes x = true) → a ≠ b) := by
  intro sched hmem
  have hres : resolvePools cat [c, c] = .ok [pool, pool] := by
    simp [resolvePools, hpool]
  rw [find_schedules_eq, hres] at h
  simp only [Except.map, Except.ok.injEq] at h
  subst h
  have hmem' : sched ∈ (cartesianProduct [pool, pool]).filter
      (fun cmb => validCombo cmb startOk endOk daysOk) :=
    List.take_subset _ _ hmem
  obtain ⟨hprod, hvalid⟩ := List.mem_filter.mp hmem'
  rw [mem_cartesianProduct_cons] at hprod
  obtain ⟨a, xs, ha, hxs, rfl⟩ := hprod
  rw [mem_cartesianProduct_cons] at hxs
  obtain ⟨b, ys, hb, hys, rfl⟩ := hxs
  have hys' : ys = [] := by simpa [cartesianProduct] using hys
  subst hys'
  have hclash : a.clashes b = false := by
    have hp := ((validCombo_eq_true_iff _ _ _ _).mp hvalid).2.2
    simp only [List.pairwise_cons] at hp
    exact hp.1 b (List.mem_singleton_self b)
  refine ⟨rfl, ?_⟩
  intro a' b' heq
  injection heq with h1 h2
  injection h2 with h3 h4
  subst h1
  subst h3
  refine ⟨ha, hb, hclash, ?_⟩
  intro hall hab
  rw [hab] at hclash
  rw [hall b hb] at hclash
  cases hclash

/-- Witness for C6 (amended): for a pool of two self-clashing sections, the
first yielded schedule holds two distinct non-clashing sections. -/
theorem duplicate_slots_independent_witness :
    secMon ∈ [secMon, secTue] ∧ secTue ∈ [secMon, secTue] ∧
      secMon.clashes secTue = false ∧ secMon ≠ secTue :=
  have h := duplicate_slots_independent catB "B" [secMon, secTue] 0 1440
    ['M', 'T'] [[secMon, secTue], [secTue, secMon]] rfl rfl
    [secMon, secTue] (by simp)
  have h2 := h.2 secMon secTue rfl
  ⟨h2.1, h2.2.1, h2.2.2.1, h2.2.2.2 (by decide)⟩

/-- Counterexample to C7 as stated: with `earliest = latest = 600` the
engine does not fail with any request-level error; it enumerates and
returns a successful empty result. -/
theorem degenerate_window_cex :
    find_schedules cat1 ["A"] 600 600 ['M'] = .ok [] := rfl

/-- Claim C7 (amended): `find_schedules` performs no validation of
`earliest >= latest`; on such a request over resolvable courses it
enumerates normally and returns a successful result, which is empty
whenever at least one course is requested and every catalogue section has
`start < end`. -/
theorem degenerate_window_no_error (cat : Catalogue) (courses : List String)
    (startOk endOk : Nat) (daysOk : List Char) (pools : List (List Section))
    (hres : resolvePools cat courses = .ok pools)
    (hwin : endOk ≤ startOk)
    (hne : pools ≠ [])
    (hwf : ∀ pool ∈ pools, ∀ sec ∈ pool, sec.start < sec.stop) :
    find_schedules cat courses startOk endOk daysOk = .ok [] := by
  have hfilter : (cartesianProduct pools).filter
      (fun c => validCombo c startOk endOk daysOk) = [] := by
    rw [List.filter_eq_nil_iff]
    intro combo hc
    cases pools with
    | nil => exact absurd rfl hne
    | cons p ps =>
      rw [mem_cartesianProduct_cons] at hc
      obtain ⟨x, xs, hx, _, rfl⟩ := hc
      have hxwf := hwf p (List.mem_cons_self p ps) x hx
      intro hv
      have ht := ((validCombo_eq_true_iff _ _ _ _).mp hv).2.1 x
        (List.mem_cons_self x xs)
      omega
  rw [find_schedules_eq, hres]
  simp only [Except.map, hfilter, List.take_nil]

/-- Witness for C7 (amended): a concrete inverted window over a resolvable
course yields a successful empty result. -/
theorem degenerate_window_no_error_witness :
    find_schedules catB ["B"] 500 400 ['M', 'T'] = .ok [] :=
  degenerate_window_no_error catB ["B"] 500 400 ['M', 'T'] [[secMon, secTue]]
    rfl (by decide) (by simp) (by decide)

/-- Counterexample to C8 as stated: constructing a `Section` from
`start = "10:00"`, `end = "09:00"` succeeds, producing a value with
`start = 600 >= 540 = end` instead of raising an error. -/
theorem mkSection_inverted_cex :
    mkSection "X" 1 ['M'] "10:00".toList "09:00".toList =
      some ⟨"X", 1, ['M'], 600, 540⟩
    ∧ (mkSection "X" 1 ['M'] "10:00".toList "09:00".toList).map
        (fun s => decide (s.start < s.stop)) = some false :=
  ⟨rfl, rfl⟩

/-- Claim C8 (amended): `Section` construction validates nothing beyond
parsing the two time strings with `_mins`; whenever both parse it succeeds
with exactly the parsed values, regardless of their order, so a constructed
`Section` need not satisfy `start < end`. -/
theorem mkSection_no_validation (course : String) (crn : Nat) (days : List Char)
    (startStr stopStr : List Char) (sv ev : Nat)
    (hs : mins startStr = some sv) (he : mins stopStr = some ev) :
    mkSection course crn days startStr stopStr =
      some ⟨course, crn, days.eraseDups, sv, ev⟩ := by
  unfold mkSection
  rw [hs, he]

/-- Witness for C8 (amended) at parsable but inverted time strings. -/
theorem mkSection_no_validation_witness :
    mins "10:00".toList = some 600 ∧ mins "09:00".toList = some 540 ∧
      mkSection "Y" 2 ['T'] "10:00".toList "09:00".toList =
        some ⟨"Y", 2, ['T'], 600, 540⟩ :=
  ⟨rfl, rfl, mkSection_no_validation "Y" 2 ['T'] "10:00".toList "09:00".toList
    600 540 rfl rfl⟩

/-- Counterexample to C9 as stated: on a valid request (course resolves,
constraints well-formed) with zero yielded schedules, `/api/solve` answers
the error body `{"error": "no-schedule"}` with HTTP status 404, not an
empty-but-successful result list. -/
theorem no_schedule_http404_cex :
    api_solve cat1 ["A"] "09:00".toList "16:00".toList ['T'] =
      .errorResponse "no-schedule" 404 := rfl

/-- Claim C9 (amended): when enumeration completes with zero schedules,
`/api/solve` answers the error response `no-schedule` with status 404 —
an error code, not an empty success list — and that outcome is
distinguishable from the `malformed-request` (400) response and from an
unknown-course failure, which escapes as an unhandled exception. -/
theorem no_schedule_error_response (cat : Catalogue) (courses : List String)
    (startStr endStr daysStr : List Char) (s e : Nat)
    (hs : mins startStr = some s) (he : mins endStr = some e)
    (h : find_schedules cat (courses.map upperStr) s e
      (daysStr.map Char.toUpper) = .ok []) :
    api_solve cat courses startStr endStr daysStr =
      .errorResponse "no-schedule" 404
    ∧ (∀ body, api_solve cat courses startStr endStr daysStr ≠ .solutions body)
    ∧ (ApiResponse.errorResponse "no-schedule" 404 ≠
        ApiResponse.errorResponse "malformed-request" 400)
    ∧ (∀ msg, ApiResponse.errorResponse "no-schedule" 404 ≠
        ApiResponse.unhandled msg) := by
  have happ : api_solve cat courses startStr endStr daysStr =
      .errorResponse "no-schedule" 404 := by
    unfold api_solve
    rw [hs, he]
    simp [h]
  refine ⟨happ, ?_, by simp, by simp⟩
  intro body hcontra
  rw [happ] at hcontra
  cases hcontra

/-- Witness for C9 (amended): a request whose day constraint excludes every
section gets the 404 `no-schedule` error response. -/
theorem no_schedule_error_response_witness :
    api_solve catB ["B"] "09:00".toList "16:00".toList ['W'] =
      .errorResponse "no-schedule" 404 :=
  (no_schedule_error_response catB ["B"] "09:00".toList "16:00".toList ['W']
    540 960 rfl rfl rfl).1

theorem splitColon_cons (c : Char) (rest : List Char) :
    splitColon (c :: rest) =
      if c = ':' then [] :: splitColon rest
      else
        match splitColon rest with
        | h :: t => (c :: h) :: t
        | [] => [[c]] := rfl

theorem splitColon_no_colon (cs : List Char) (h : ':' ∉ cs) :
    splitColon cs = [cs] := by
  induction cs with
  | nil => rfl
  | cons c rest ih =>
    have hc : ¬ c = ':' := fun hc => h (hc ▸ List.mem_cons_self c rest)
    rw [splitColon_cons, if_neg hc, ih (fun hm => h (List.mem_cons_of_mem c hm))]

theorem splitColon_append (l r : List Char) (hl : ':' ∉ l) :
    splitColon (l ++ ':' :: r) = l :: splitColon r := by
  induction l with
  | nil => simp [splitColon_cons]
  | cons c l' ih =>
    have hc : ¬ c = ':' := fun hc => hl (hc ▸ List.mem_cons_self c l')
    rw [List.cons_append, splitColon_cons, if_neg hc,
      ih (fun hm => hl (List.mem_cons_of_mem c hm))]

theorem parseDigits_pad2 : ∀ n : Nat, n < 100 →
    parseDigits (pad2 n) = some n ∧ ':' ∉ pad2 n := by
  decide

/-- Claim C10: for every minute value below 1440, parsing the rendered
`"HH:MM"` clock string (as produced by `Section.to_dict`) with `_mins`
gives back exactly that minute value. -/
theorem clock_roundtrip : ∀ m : Nat, m < 1440 → mins (fmtClock m) = some m := by
  intro m hm
  obtain ⟨hp1, hc1⟩ := parseDigits_pad2 (m / 60) (by omega)
  obtain ⟨hp2, hc2⟩ := parseDigits_pad2 (m % 60) (by omega)
  unfold mins fmtClock
  rw [splitColon_append _ _ hc1, splitColon_no_colon _ hc2]
  simp only [hp1, hp2]
  have hdm : 60 * (m / 60) + m % 60 = m := by omega
  rw [hdm]

/-- Witness for C10 at the concrete minute value 754 (`"12:34"`). -/
theorem clock_roundtrip_witness : 754 < 1440 ∧ mins (fmtClock 754) = some 754 :=
  ⟨by decide, clock_roundtrip 754 (by decide)⟩

end NJIT
